import Mathlib

/-!
Verification development for the PocketIntel multi-source acquisition pipeline.

The Python source is shallowly embedded: pandas data frames become a column
list plus row-major cells, outbound I/O (provider downloads, HTTP, the disk
cache) becomes explicit oracles and state passing, and each fetcher also
returns the list of side-effect events (cache reads/writes, live provider
calls, backoff sleeps) it performed, so that cache-before-live and retry
policies are provable facts about traces.
-/

namespace PocketIntel

abbrev Err := String

instance {ε α : Type} [DecidableEq ε] [DecidableEq α] : DecidableEq (Except ε α) := fun a b =>
  match a, b with
  | .ok x, .ok y => if h : x = y then .isTrue (by rw [h]) else .isFalse (by simp [h])
  | .error x, .error y => if h : x = y then .isTrue (by rw [h]) else .isFalse (by simp [h])
  | .ok _, .error _ => .isFalse (by simp)
  | .error _, .ok _ => .isFalse (by simp)

/-- A pandas DataFrame: named columns and row-major cells; a missing value
(NaN/None) is `none`.  Dates are encoded as day numbers inside `Rat`. -/
structure Df where
  cols : List String
  rows : List (List (Option Rat))
deriving DecidableEq

/-- Index of a column name (first occurrence), as pandas column lookup. -/
def colIdx (df : Df) (name : String) : Option Nat :=
  df.cols.findIdx? (· = name)

/-- Cell of a row at a column index; out-of-range reads are missing values. -/
def cell (r : List (Option Rat)) (i : Nat) : Option Rat :=
  r.getD i none

/-- Embeds `df[name]` as a column of cells, `none` when the column does not exist. -/
def getCol (df : Df) (name : String) : Option (List (Option Rat)) :=
  (colIdx df name).map (fun i => df.rows.map (fun r => cell r i))

/-- Embeds `df[name] = vals`: overwrite the column when present, append it otherwise
(pandas assignment). -/
def setCol (df : Df) (name : String) (vals : List (Option Rat)) : Df :=
  match colIdx df name with
  | some i => ⟨df.cols, (df.rows.zip vals).map (fun p => p.1.set i p.2)⟩
  | none => ⟨df.cols ++ [name], (df.rows.zip vals).map (fun p => p.1 ++ [p.2])⟩

/-- Embeds `df.rename(columns=...)` from an association list old-name to new-name. -/
def renameCols (m : List (String × String)) (df : Df) : Df :=
  ⟨df.cols.map (fun c => (m.lookup c).getD c), df.rows⟩

/-- Embeds `df.dropna(subset=...)`: keep rows whose subset cells are all present;
pandas raises when a subset column is absent. -/
def dropna (subset : List String) (df : Df) : Except Err Df :=
  if subset.all (fun n => df.cols.contains n) then
    .ok ⟨df.cols, df.rows.filter (fun r => subset.all (fun n =>
      (cell r ((colIdx df n).getD 0)).isSome))⟩
  else .error "dropna: missing subset column"

/-- Embeds `df[[names]]` column projection; pandas raises KeyError on a missing name. -/
def selectCols (names : List String) (df : Df) : Except Err Df :=
  if names.all (fun n => df.cols.contains n) then
    .ok ⟨names, df.rows.map (fun r => names.map (fun n =>
      cell r ((colIdx df n).getD 0)))⟩
  else .error "KeyError: columns not in index"

/-- Python `str.capitalize`: first character upper, rest lower. -/
def pyCapitalize (s : String) : String :=
  (s.take 1).toUpper ++ (s.drop 1).toLower

/-- Embeds `pd.to_datetime(t, unit="ms").dt.date`: milliseconds since epoch to a
calendar-day number. -/
def msToDate (t : Rat) : Rat :=
  ((Int.fdiv t.floor 86400000 : Int) : Rat)

/-- The canonical column set requested from every price provider:
`["Date","Close"]` close-only, `["Date","High","Low","Close"]` full OHLC. -/
def expected_cols (full_ohlc : Bool) : List String :=
  if full_ohlc then ["Date", "High", "Low", "Close"] else ["Date", "Close"]

namespace StockClient

/-- The adjusted-close substitution in `get_yfinance_df`: when `Close` is
absent but `Adj Close` is present, `df["Close"] = df["Adj Close"]`. -/
def yfPrep (df0 : Df) : Df :=
  if !df0.cols.contains "Close" && df0.cols.contains "Adj Close" then
    setCol df0 "Close" ((getCol df0 "Adj Close").getD [])
  else df0

/-- Normalization tail of `get_yfinance_df` (source lines 68-79), for a
single-instrument flat-column payload after `reset_index`: adjusted-close
substitution, expected-column check, `dropna` over the expected columns, and
projection onto them.  The `MultiIndex` flattening branch for multi-instrument
payloads is not modelled. -/
def yf_normalize (df0 : Df) (full_ohlc : Bool) : Except Err Df :=
  let df := yfPrep df0
  let expected := expected_cols full_ohlc
  if expected.all (fun c => df.cols.contains c) then
    match dropna expected df with
    | .error e => .error e
    | .ok d => selectCols expected d
  else .error "Missing columns from yfinance"

/-- Normalization tail of `fetch_from_polygon` (source lines 120-128): given
the parsed `results` rows as a frame, require the `t` timestamp column,
compute `Date` from it, rename `c` to `Close` (and only `c`), drop rows with
missing `Date`/`Close`, and project onto the requested canonical columns. -/
def polyWithDate (raw : Df) : Df :=
  setCol raw "Date" (((getCol raw "t").getD []).map (Option.map msToDate))

/-- Normalization tail of `fetch_from_polygon`, continued: rename only `c`,
drop NA rows, project. -/
def polygon_normalize (raw : Df) (full_ohlc : Bool) : Except Err Df :=
  if !raw.cols.contains "t" then
    .error "Missing t (timestamp) column in Polygon response"
  else
    let renamed := renameCols [("c", "Close")] (polyWithDate raw)
    match dropna ["Date", "Close"] renamed with
    | .error e => .error e
    | .ok d => selectCols (expected_cols full_ohlc) d

end StockClient

/-- Side effects a fetcher performs, in order: a cache consult (existence and
mtime check, plus the read on a hit), a live provider call, a cache write,
and the fixed 1-second retry backoff sleep. -/
inductive Ev where
  | cacheRead : String → Ev
  | liveCall : String → Ev
  | cacheWrite : String → Ev
  | sleep1s : Ev
deriving DecidableEq

/-- The on-disk parquet cache: one file per path, carrying its mtime
(seconds) and the stored frame. -/
structure FileCache where
  files : List (String × Int × Df)
deriving DecidableEq

/-- Embeds `os.path.exists` plus `stat.st_mtime` plus the stored payload. -/
def statFile (c : FileCache) (path : String) : Option (Int × Df) :=
  (c.files.find? (fun e => e.1 = path)).map (fun e => e.2)

/-- Embeds `pd.read_parquet`. -/
def read_parquet (c : FileCache) (path : String) : Except Err Df :=
  match statFile c path with
  | none => .error "FileNotFoundError"
  | some p => .ok p.2

/-- Embeds `df.to_parquet(path)`: unconditional overwrite, mtime set to now. -/
def to_parquet (now : Int) (c : FileCache) (path : String) (df : Df) : FileCache :=
  ⟨(path, now, df) :: c.files.filter (fun e => e.1 ≠ path)⟩

/-- Python `int(...)` on a digit string; `none` models the `ValueError` of a
malformed literal (signs and whitespace, which no period string uses, are not
modelled). -/
def pyInt? (cs : List Char) : Option Nat :=
  if cs ≠ [] ∧ cs.all Char.isDigit then
    some (cs.foldl (fun n c => n * 10 + (c.toNat - 48)) 0)
  else none

/-- Embeds `int(period[:-2]) * 30` for `<N>mo`, `int(period[:-1]) * 365` for
`<N>y` over the period's characters; any other form raises "Unsupported
period format". -/
def parsePeriodDays (period : String) : Option Nat :=
  let cs := period.data
  if cs.reverse.take 2 = ['o', 'm'] then (pyInt? (cs.take (cs.length - 2))).map (· * 30)
  else if cs.reverse.take 1 = ['y'] then (pyInt? (cs.take (cs.length - 1))).map (· * 365)
  else none

namespace TiingoClient

def CACHE_DIR : String := "./.cache/stock_data"

def MAX_CACHE_AGE_HOURS : Int := 24

/-- Cache key layout: one file per (source, ticker, period, shape). -/
def get_cache_path (ticker period : String) (full_ohlc : Bool) (source : String) : String :=
  CACHE_DIR ++ "/" ++ source ++ "_" ++ ticker ++ "_" ++ period ++ "_" ++
    (if full_ohlc then "ohlc" else "close") ++ ".parquet"

/-- Freshness: the file exists and `now - mtime < timedelta(hours=24)`,
strictly. -/
def is_cache_fresh (now : Int) (c : FileCache) (path : String) : Bool :=
  match statFile c path with
  | none => false
  | some p => decide (now - p.1 < MAX_CACHE_AGE_HOURS * 3600)

/-- Normalization tail of `fetch_from_tiingo` (source lines 90-103): empty
check, lowercase-name renaming to canonical, `Date` conversion, a
case-insensitive expected-column check, exact projection, `str.capitalize`
renaming. -/
def tiingo_normalize (raw : Df) (full_ohlc : Bool) : Except Err Df :=
  if raw.rows.isEmpty then .error "Tiingo returned empty DataFrame"
  else
    let df := renameCols [("date", "Date"), ("high", "High"), ("low", "Low"), ("close", "Close")] raw
    if !df.cols.contains "Date" then .error "KeyError: Date"
    else
      let expected := expected_cols full_ohlc
      if expected.all (fun c => df.cols.any (fun c2 => c2.toLower = c.toLower)) then
        match selectCols expected df with
        | .error e => .error e
        | .ok r => .ok ⟨r.cols.map pyCapitalize, r.rows⟩
      else .error "Missing columns from Tiingo"

/-- Result of a fetch: terminal value, the ordered side-effect trace, and the
cache directory afterwards. -/
structure FetchResult where
  res : Except Err Df
  trace : List Ev
  cache : FileCache
deriving DecidableEq

/-- Embeds `fetch_from_tiingo` (source lines 67-106) with the live Tiingo call as an
oracle: consult the cache with the tiingo key first and return a fresh hit;
on a miss parse the period, call Tiingo live, normalize, write the cache. -/
def fetch_from_tiingo (now : Int) (c : FileCache) (live : Except Err Df)
    (ticker period : String) (full_ohlc : Bool) : FetchResult :=
  let path := get_cache_path ticker period full_ohlc "tiingo"
  if is_cache_fresh now c path then
    ⟨read_parquet c path, [.cacheRead path], c⟩
  else
    match parsePeriodDays period with
    | none => ⟨.error "Unsupported period format", [.cacheRead path], c⟩
    | some _ =>
      match live with
      | .error e => ⟨.error e, [.cacheRead path, .liveCall "tiingo"], c⟩
      | .ok raw =>
        match tiingo_normalize raw full_ohlc with
        | .error e => ⟨.error e, [.cacheRead path, .liveCall "tiingo"], c⟩
        | .ok result =>
          ⟨.ok result, [.cacheRead path, .liveCall "tiingo", .cacheWrite path],
            to_parquet now c path result⟩

/-- Embeds `fetch_from_polygon` of the cached chain (source lines 109-157): consult
the cache with the polygon key first; on a miss parse the period, call the
Polygon API (the oracle yields the parsed `results` rows), reject an empty
result set, normalize, write the cache. -/
def fetch_from_polygon (now : Int) (c : FileCache) (live : Except Err Df)
    (ticker period : String) (full_ohlc : Bool) : FetchResult :=
  let path := get_cache_path ticker period full_ohlc "polygon"
  if is_cache_fresh now c path then
    ⟨read_parquet c path, [.cacheRead path], c⟩
  else
    match parsePeriodDays period with
    | none => ⟨.error "Unsupported period format", [.cacheRead path], c⟩
    | some _ =>
      match live with
      | .error e => ⟨.error e, [.cacheRead path, .liveCall "polygon"], c⟩
      | .ok raw =>
        if raw.rows.isEmpty then
          ⟨.error "No data in Polygon response", [.cacheRead path, .liveCall "polygon"], c⟩
        else
          match StockClient.polygon_normalize raw full_ohlc with
          | .error e => ⟨.error e, [.cacheRead path, .liveCall "polygon"], c⟩
          | .ok result =>
            ⟨.ok result, [.cacheRead path, .liveCall "polygon", .cacheWrite path],
              to_parquet now c path result⟩

/-- The Tiingo-primary fallback chain `fetch_stock_price_data`
(source lines 54-64): try Tiingo; on any failure try Polygon; re-raise the
Polygon failure when both fail. -/
def fetch_stock_price_data (now : Int) (c : FileCache)
    (tiingoLive polyLive : Except Err Df) (ticker period : String)
    (full_ohlc : Bool) : FetchResult :=
  let r1 := fetch_from_tiingo now c tiingoLive ticker period full_ohlc
  match r1.res with
  | .ok df => ⟨.ok df, r1.trace, r1.cache⟩
  | .error _ =>
    let r2 := fetch_from_polygon now r1.cache polyLive ticker period full_ohlc
    ⟨r2.res, r1.trace ++ r2.trace, r2.cache⟩

end TiingoClient

namespace StockClient

/-- The `for attempt in range(3)` loop of `get_yfinance_df`: each attempt is
one live yfinance call; an exception logs, sleeps 1 second and retries; the
first successful download breaks out.  `k` is the attempt index, `n` the
attempts remaining. -/
def yfAttempts (dl : Nat → Except Err Df) : Nat → Nat → Option Df × List Ev
  | _, 0 => (none, [])
  | k, n + 1 =>
    match dl k with
    | .ok df => (some df, [.liveCall "yfinance"])
    | .error _ =>
      let p := yfAttempts dl (k + 1) n
      (p.1, .liveCall "yfinance" :: .sleep1s :: p.2)

/-- Embeds `get_yfinance_df` (source lines 41-79): three retried download attempts;
exhaustion raises; an empty frame raises without any retry; otherwise the
normalization tail runs.  There is no cache anywhere in this module. -/
def get_yfinance_df (dl : Nat → Except Err Df) (full_ohlc : Bool) :
    Except Err Df × List Ev :=
  match yfAttempts dl 0 3 with
  | (none, evs) => (.error "yfinance failed after 3 retries", evs)
  | (some df, evs) =>
    if df.rows.isEmpty then (.error "yfinance returned empty data", evs)
    else (yf_normalize df full_ohlc, evs)

/-- The uncached `fetch_from_polygon` (source lines 82-128): period parsing,
one Polygon API call (oracle yields the parsed `results` rows), empty-result
rejection, normalization.  No cache consult, no cache write. -/
def fetch_from_polygon (live : Except Err Df) (period : String)
    (full_ohlc : Bool) : Except Err Df × List Ev :=
  match parsePeriodDays period with
  | none => (.error "Unsupported period format", [])
  | some _ =>
    match live with
    | .error e => (.error e, [.liveCall "polygon"])
    | .ok raw =>
      if raw.rows.isEmpty then
        (.error "No data in Polygon response", [.liveCall "polygon"])
      else (polygon_normalize raw full_ohlc, [.liveCall "polygon"])

/-- The yfinance-primary fallback chain `fetch_stock_price_data`
(source lines 28-38), the one `main.analyze` invokes: try yfinance, fall
back to Polygon on any failure.  Neither leg touches a cache. -/
def fetch_stock_price_data (dl : Nat → Except Err Df) (polyLive : Except Err Df)
    (period : String) (full_ohlc : Bool) : Except Err Df × List Ev :=
  match get_yfinance_df dl full_ohlc with
  | (.ok df, evs) => (.ok df, evs)
  | (.error _, evs) =>
    let p := fetch_from_polygon polyLive period full_ohlc
    (p.1, evs ++ p.2)

end StockClient

namespace MainApp

/-- Embeds `asyncio.gather(*tasks, return_exceptions=True)` denotationally: each
task is an independent computation with its own terminal outcome; gather
settles every task and returns the outcomes positionally, failures captured
as values.  No outcome is dropped, reordered, or cancelled by a sibling. -/
def gatherRE {ε α : Type} (tasks : List (Unit → Except ε α)) : List (Except ε α) :=
  tasks.map (fun t => t ())

/-- The `chart_tasks` assembly of `main.analyze` (source lines 70-86): the
sector task when a sector was detected, the ticker task when a ticker was,
and the trend plus news tasks when a subject was, in that order. -/
def analyze_chart_tasks {α : Type} (sector ticker subject : Option String)
    (sectorTask tickerTask trendTask newsTask : Unit → Except Err α) :
    List (Unit → Except Err α) :=
  (if sector.isSome then [sectorTask] else []) ++
  (if ticker.isSome then [tickerTask] else []) ++
  (if subject.isSome then [trendTask, newsTask] else [])

/-- Embeds `chart_results` of `main.analyze` (source line 87). -/
def analyze_chart_results {α : Type} (sector ticker subject : Option String)
    (sectorTask tickerTask trendTask newsTask : Unit → Except Err α) :
    List (Except Err α) :=
  gatherRE (analyze_chart_tasks sector ticker subject sectorTask tickerTask trendTask newsTask)

end MainApp

namespace NewsClient

/-- Per-snippet rule of `classify_headlines_with_vader` (source lines 27-37):
`not text` (missing or empty) is neutral; otherwise the VADER compound score
(an oracle here) is bucketed at the fixed literals 0.2 and -0.2. -/
def classify_one (score : String → Rat) (text : Option String) : String :=
  match text with
  | none => "neutral"
  | some s =>
    if s = "" then "neutral"
    else
      if score s ≥ 2/10 then "positive"
      else if score s ≤ -(2/10) then "negative"
      else "neutral"

/-- Embeds `classify_headlines_with_vader` (source lines 25-38). -/
def classify_headlines_with_vader (score : String → Rat)
    (headlines : List (Option String)) : List String :=
  headlines.map (classify_one score)

/-- Embeds `fetch_headlines_newsapi` (source lines 41-61): on HTTP success the
article descriptions (possibly null) are returned; any error is caught and
becomes the empty list.  The oracle stands for the NewsAPI request. -/
def fetch_headlines_newsapi (http : Except Err (List (Option String))) :
    List (Option String) :=
  match http with
  | .ok articles => articles
  | .error _ => []

structure SentRow where
  date : Int
  positive : Nat
  neutral : Nat
  negative : Nat
deriving DecidableEq

/-- The five `(from, to)` day bounds of `fetch_news_sentiment_data`
(source lines 71-77): `i` runs over `reversed(range(5))`, days as day
numbers. -/
def date_ranges (today : Int) : List (Int × Int) :=
  ((List.range 5).reverse).map (fun i => (today - ((i : Int) + 1), today - (i : Int)))

/-- One aggregated day (source lines 84-91): classify the day's headlines and
count each class; the row is keyed by the range's start date. -/
def day_counts (score : String → Rat) (headlines : List (Option String))
    (d : Int) : SentRow :=
  let sentiments := classify_headlines_with_vader score headlines
  ⟨d, sentiments.count "positive", sentiments.count "neutral", sentiments.count "negative"⟩

/-- Embeds `fetch_news_sentiment_data` (source lines 64-96): per-day fetches are
gathered and reassembled in day order by zipping with `date_ranges` (the
day index), never by completion order; `http` is the per-day NewsAPI
oracle. -/
def fetch_news_sentiment_data (score : String → Rat)
    (http : Int × Int → Except Err (List (Option String))) (today : Int) :
    List SentRow :=
  (date_ranges today).map (fun r =>
    day_counts score (fetch_headlines_newsapi (http r)) r.1)

end NewsClient

namespace SectorClient

/-- The ten sector ETFs of `get_sector_typical_prices` (source lines 18-29),
in source order. -/
def sector_etfs : List (String × String) :=
  [("Technology", "XLK"), ("Financials", "XLF"), ("Energy", "XLE"),
   ("Healthcare", "XLV"), ("Consumer Discretionary", "XLY"),
   ("Industrials", "XLI"), ("Utilities", "XLU"), ("Materials", "XLB"),
   ("Real Estate", "XLRE"), ("Communication Services", "XLC")]

/-- Embeds `df.set_index("Date"); (df["High"] + df["Low"] + df["Close"]) / 3`
(source lines 35-36): the per-date typical-price series, `none` when any of
the four columns is missing (the KeyError the caller catches) and a missing
cell where any addend is missing (NaN arithmetic). -/
def typical_of (df : Df) : Option (List (Option Rat × Option Rat)) :=
  match getCol df "Date", getCol df "High", getCol df "Low", getCol df "Close" with
  | some d, some h, some l, some c =>
    some ((d.zip (h.zip (l.zip c))).map (fun p =>
      (p.1, match p.2.1, p.2.2.1, p.2.2.2 with
            | some hv, some lv, some cv => some ((hv + lv + cv) / 3)
            | _, _, _ => none)))
  | _, _, _, _ => none

/-- Embeds `get_typical_price` (source lines 31-40): any exception — a failed fetch
or a missing column — is caught and becomes `(sector, None)`.  The oracle
stands for the awaited `fetch_stock_price_data(ticker)`. -/
def get_typical_price (oracle : String → Except Err Df) (sector ticker : String) :
    String × Option (List (Option Rat × Option Rat)) :=
  match oracle ticker with
  | .error _ => (sector, none)
  | .ok df => (sector, typical_of df)

/-- Embeds `get_sector_typical_prices` (source lines 17-60): gather the ten sector
tasks, keep the non-None series named by their sector, and return them as
the columns of the result; with no valid series the result is the empty
frame, not an exception. -/
def get_sector_typical_prices (oracle : String → Except Err Df) :
    List (String × List (Option Rat × Option Rat)) :=
  (sector_etfs.map (fun p => get_typical_price oracle p.1 p.2)).filterMap
    (fun r => r.2.map (fun ts => (r.1, ts)))

end SectorClient

namespace Startup

/-- Embeds `os.getenv`. -/
def getenv (env : List (String × String)) (k : String) : Option String :=
  env.lookup k

/-- Python `if not KEY:` on a credential: true when the variable is unset or
empty. -/
def envKeyMissing (env : List (String × String)) (k : String) : Bool :=
  match getenv env k with
  | none => true
  | some v => v = ""

/-- Embeds `config.py` module body: read and validate PERPLEXITY, NEWSAPI and
POLYGON keys, raising at import time when one is missing. -/
def config_init (env : List (String × String)) : Except Err Unit :=
  if envKeyMissing env "PERPLEXITY_API_KEY" then
    .error "PERPLEXITY_API_KEY not found in .env file."
  else if envKeyMissing env "NEWSAPI_KEY" then
    .error "NEWSAPI_KEY not found in .env file."
  else if envKeyMissing env "POLYGON_API_KEY" then
    .error "POLYGON_API_KEY not found in .env file."
  else .ok ()

/-- Embeds `stockprice_client.py` module body (lines 17-21): POLYGON key
required when the module loads. -/
def stockprice_module_init (env : List (String × String)) : Except Err Unit :=
  if envKeyMissing env "POLYGON_API_KEY" then
    .error "POLYGON_API_KEY not found in environment variables."
  else .ok ()

/-- Embeds `stockprice_client_tiingo.py` module body (lines 19-25): TIINGO
then POLYGON keys required when the module loads. -/
def tiingo_module_init (env : List (String × String)) : Except Err Unit :=
  if envKeyMissing env "TIINGO_API_KEY" then
    .error "TIINGO_API_KEY not found in environment variables."
  else if envKeyMissing env "POLYGON_API_KEY" then
    .error "POLYGON_API_KEY not found in environment variables."
  else .ok ()

/-- Embeds `newsapi_client.py` module body (lines 19-22): the NEWSAPI key is read
with no validation of its own; import never fails. -/
def newsapi_module_init (env : List (String × String)) : Except Err (Option String) :=
  .ok (getenv env "NEWSAPI_KEY")

/-- Importing `main.py`: `modules.sonar_client` pulls in `config.py`, then
the chart connectors pull in the tiingo, stockprice and newsapi modules, in
that order; the first failing module body aborts startup. -/
def main_module_init (env : List (String × String)) : Except Err Unit := do
  config_init env
  tiingo_module_init env
  stockprice_module_init env
  let _ ← newsapi_module_init env
  pure ()

end Startup

/-! Derived notions used by the theorems. -/

/-- The `Date` column of a frame, empty when the column is absent. -/
def datesCol (df : Df) : List (Option Rat) :=
  (getCol df "Date").getD []

/-- Strict order on optional dates: both present and ascending. -/
def optLtB (a b : Option Rat) : Bool :=
  match a, b with
  | some x, some y => decide (x < y)
  | _, _ => false

/-- Whether one sector fetch contributes a column: the awaited fetch
succeeded and the typical-price computation found its columns. -/
def succB (r : Except Err Df) : Bool :=
  match r with
  | .ok df => (SectorClient.typical_of df).isSome
  | .error _ => false

/-- A well-formed close-only provider frame used as concrete test data. -/
def sampleCloseDf : Df :=
  ⟨["Date", "Close"], [[some 1, some 10]]⟩

/-- A well-formed Polygon `results` frame: the aggregate fields Polygon
actually returns (`v`,`vw`,`o`,`c`,`h`,`l`,`t`,`n`), one bar. -/
def samplePolyDf : Df :=
  ⟨["v", "vw", "o", "c", "h", "l", "t", "n"],
   [[some 100, some 10, some 9, some 11, some 12, some 8, some 86400000, some 5]]⟩

/-! ## C1 — fan-out returns N outcomes positionally, failures as values -/

/-- C1: for every fan-out batch the orchestrator returns exactly as many
outcomes as tasks were submitted, and the k-th outcome is exactly the k-th
task's own terminal result (its success payload or its failure captured as a
value), independent of every other task — no failure cancels, delays or
removes a sibling's outcome. -/
theorem fan_out_positional {α : Type} (sector ticker subject : Option String)
    (sectorTask tickerTask trendTask newsTask : Unit → Except Err α) :
    (MainApp.analyze_chart_results sector ticker subject
        sectorTask tickerTask trendTask newsTask).length =
      (MainApp.analyze_chart_tasks sector ticker subject
        sectorTask tickerTask trendTask newsTask).length ∧
    ∀ k : Nat,
      (MainApp.analyze_chart_results sector ticker subject
          sectorTask tickerTask trendTask newsTask)[k]? =
        ((MainApp.analyze_chart_tasks sector ticker subject
          sectorTask tickerTask trendTask newsTask)[k]?).map (fun t => t ()) := by
  refine ⟨?_, ?_⟩
  · simp [MainApp.analyze_chart_results, MainApp.gatherRE]
  · intro k
    simp [MainApp.analyze_chart_results, MainApp.gatherRE]

/-! ## C6 — sentiment classifier thresholds -/

/-- Per-snippet case split of the classifier. -/
theorem classify_one_cases (score : String → Rat) (t : Option String) :
    NewsClient.classify_one score t = "positive" ∨
    NewsClient.classify_one score t = "neutral" ∨
    NewsClient.classify_one score t = "negative" := by
  rcases t with _ | s
  · simp [NewsClient.classify_one]
  · simp only [NewsClient.classify_one]
    split_ifs <;> simp

/-- C6: the classifier assigns neutral to empty or missing text; otherwise,
with `s` the compound score, it assigns positive iff `s ≥ 0.2`, negative iff
`s ≤ -0.2`, and neutral otherwise; the thresholds are the fixed literals in
the definition, not parameters of the call. -/
theorem classifier_thresholds (score : String → Rat) (hs : List (Option String))
    (i : Nat) (t : Option String) (ht : hs[i]? = some t) :
    ((t = none ∨ t = some "") →
      (NewsClient.classify_headlines_with_vader score hs)[i]? = some "neutral") ∧
    ∀ s, t = some s → s ≠ "" →
      (((NewsClient.classify_headlines_with_vader score hs)[i]? = some "positive") ↔
        2/10 ≤ score s) ∧
      (((NewsClient.classify_headlines_with_vader score hs)[i]? = some "negative") ↔
        score s ≤ -(2/10)) ∧
      (((NewsClient.classify_headlines_with_vader score hs)[i]? = some "neutral") ↔
        (-(2/10) < score s ∧ score s < 2/10)) := by
  have hmap : (NewsClient.classify_headlines_with_vader score hs)[i]? =
      some (NewsClient.classify_one score t) := by
    simp [NewsClient.classify_headlines_with_vader, ht]
  refine ⟨?_, ?_⟩
  · rintro (rfl | rfl) <;> simp [hmap, NewsClient.classify_one]
  · rintro s rfl hne
    rw [hmap]
    simp only [Option.some.injEq]
    unfold NewsClient.classify_one
    simp only [if_neg hne]
    rcases le_or_lt (2/10 : Rat) (score s) with hp | hp
    · rw [if_pos (by exact hp)]
      refine ⟨by simp [hp], ?_, ?_⟩
      · constructor
        · intro h; exact absurd h (by decide)
        · intro h; linarith
      · constructor
        · intro h; exact absurd h (by decide)
        · intro h; linarith
    · rw [if_neg (by exact not_le.mpr hp)]
      rcases le_or_lt (score s) (-(2/10) : Rat) with hn | hn
      · rw [if_pos hn]
        refine ⟨?_, by simp [hn], ?_⟩
        · constructor
          · intro h; exact absurd h (by decide)
          · intro h; linarith
        · constructor
          · intro h; exact absurd h (by decide)
          · intro h; linarith
      · rw [if_neg (not_le.mpr hn)]
        refine ⟨?_, ?_, by simp [hn, hp]⟩
        · constructor
          · intro h; exact absurd h (by decide)
          · intro h; linarith
        · constructor
          · intro h; exact absurd h (by decide)
          · intro h; linarith

/-- Witness for C6: with a scorer returning 1/2, the headline is classified
positive; with the same list, a missing description is neutral. -/
theorem classifier_thresholds_witness :
    (NewsClient.classify_headlines_with_vader (fun _ => 1/2)
      [some "good", none])[0]? = some "positive" ∧
    (NewsClient.classify_headlines_with_vader (fun _ => 1/2)
      [some "good", none])[1]? = some "neutral" := by
  refine ⟨?_, ?_⟩
  · exact (((classifier_thresholds (fun _ => 1/2) [some "good", none] 0
      (some "good") rfl).2 "good" rfl (by decide)).1).mpr (by norm_num)
  · exact (classifier_thresholds (fun _ => 1/2) [some "good", none] 1
      none rfl).1 (Or.inl rfl)

/-! ## C9 — credential checks at module load -/

/-- C9: startup of the application (importing `main.py`) succeeds exactly
when the four required provider credentials are present and non-empty;
missing credentials — the news provider's key included, enforced by
`config.py` which the import chain loads — abort startup, and a successful
startup guarantees a non-empty news key at every later call. -/
theorem startup_credential_check (env : List (String × String)) :
    (Startup.main_module_init env = .ok () ↔
      (Startup.envKeyMissing env "PERPLEXITY_API_KEY" = false ∧
       Startup.envKeyMissing env "NEWSAPI_KEY" = false ∧
       Startup.envKeyMissing env "POLYGON_API_KEY" = false ∧
       Startup.envKeyMissing env "TIINGO_API_KEY" = false)) ∧
    (Startup.envKeyMissing env "NEWSAPI_KEY" = true →
      Startup.main_module_init env ≠ .ok ()) ∧
    (Startup.main_module_init env = .ok () →
      ∃ v, Startup.getenv env "NEWSAPI_KEY" = some v ∧ v ≠ "") := by
  have hmain : ∀ r : Except Err Unit, r = Startup.main_module_init env → True := fun _ _ => trivial
  refine ⟨?_, ?_, ?_⟩
  · unfold Startup.main_module_init Startup.config_init Startup.tiingo_module_init
      Startup.stockprice_module_init Startup.newsapi_module_init
    rcases hP : Startup.envKeyMissing env "PERPLEXITY_API_KEY" with _ | _ <;>
      rcases hN : Startup.envKeyMissing env "NEWSAPI_KEY" with _ | _ <;>
        rcases hG : Startup.envKeyMissing env "POLYGON_API_KEY" with _ | _ <;>
          rcases hT : Startup.envKeyMissing env "TIINGO_API_KEY" with _ | _ <;>
            simp [Bind.bind, Except.bind, Pure.pure, Except.pure]
  · intro hN hok
    unfold Startup.main_module_init Startup.config_init at hok
    rcases hP : Startup.envKeyMissing env "PERPLEXITY_API_KEY" with _ | _ <;>
      simp [hP, hN, Bind.bind, Except.bind, Pure.pure, Except.pure] at hok
  · intro hok
    have hN : Startup.envKeyMissing env "NEWSAPI_KEY" = false := by
      by_contra h
      have h' : Startup.envKeyMissing env "NEWSAPI_KEY" = true := by
        revert h; rcases Startup.envKeyMissing env "NEWSAPI_KEY" <;> simp
      exact absurd hok (by
        intro hc
        unfold Startup.main_module_init Startup.config_init at hc
        rcases hP : Startup.envKeyMissing env "PERPLEXITY_API_KEY" with _ | _ <;>
          simp [hP, h', Bind.bind, Except.bind, Pure.pure, Except.pure] at hc)
    unfold Startup.envKeyMissing at hN
    rcases hv : Startup.getenv env "NEWSAPI_KEY" with _ | v
    · rw [hv] at hN; simp at hN
    · refine ⟨v, rfl, ?_⟩
      rw [hv] at hN
      simpa using hN

/-- Witness for C9: with all four keys present startup succeeds; removing
only the news key makes startup fail. -/
theorem startup_credential_check_witness :
    Startup.main_module_init
      [("PERPLEXITY_API_KEY", "p"), ("NEWSAPI_KEY", "n"),
       ("POLYGON_API_KEY", "g"), ("TIINGO_API_KEY", "t")] = .ok () ∧
    Startup.main_module_init
      [("PERPLEXITY_API_KEY", "p"),
       ("POLYGON_API_KEY", "g"), ("TIINGO_API_KEY", "t")] ≠ .ok () := by
  refine ⟨?_, ?_⟩
  · exact (startup_credential_check _).1.mpr (by decide)
  · exact (startup_credential_check _).2.1 (by decide)

/-! ## C5 — five sentiment rows, day-indexed, counts partition the headlines -/

/-- The five day ranges spelt out: ascending start days, one per calendar
day. -/
theorem date_ranges_eq (today : Int) :
    NewsClient.date_ranges today =
      [(today - 5, today - 4), (today - 4, today - 3), (today - 3, today - 2),
       (today - 2, today - 1), (today - 1, today)] := by
  have h : (List.range 5).reverse = [4, 3, 2, 1, 0] := by decide
  simp [NewsClient.date_ranges, h]

/-- Every headline lands in exactly one of the three classes, so the three
counts always partition the day's headline list. -/
theorem counts_partition (score : String → Rat) (hs : List (Option String)) :
    (NewsClient.classify_headlines_with_vader score hs).count "positive" +
    (NewsClient.classify_headlines_with_vader score hs).count "neutral" +
    (NewsClient.classify_headlines_with_vader score hs).count "negative" = hs.length := by
  induction hs with
  | nil => rfl
  | cons h t ih =>
    simp only [NewsClient.classify_headlines_with_vader, List.map_cons] at *
    rcases classify_one_cases score h with hc | hc | hc <;>
      simp [List.count_cons, hc] <;> omega

/-- C5: the 5-day sentiment fetch returns exactly 5 rows in ascending day
order, assembled by day index; row k carries day `today - 5 + k`, its three
counts sum to the number of headlines retrieved for that day, and a day
whose fetch failed yields the zero-count row instead of an error. -/
theorem sentiment_window (score : String → Rat)
    (http : Int × Int → Except Err (List (Option String))) (today : Int) :
    (NewsClient.fetch_news_sentiment_data score http today).length = 5 ∧
    List.Pairwise (fun a b => a.date < b.date)
      (NewsClient.fetch_news_sentiment_data score http today) ∧
    (∀ k : Nat, k < 5 →
      ∃ row, (NewsClient.fetch_news_sentiment_data score http today)[k]? = some row ∧
        row.date = today - 5 + (k : Int) ∧
        row.positive + row.neutral + row.negative =
          (NewsClient.fetch_headlines_newsapi
            (http (today - 5 + (k : Int), today - 4 + (k : Int)))).length ∧
        (∀ e, http (today - 5 + (k : Int), today - 4 + (k : Int)) = .error e →
          row = ⟨today - 5 + (k : Int), 0, 0, 0⟩)) := by
  have hexp : NewsClient.fetch_news_sentiment_data score http today =
      [NewsClient.day_counts score
        (NewsClient.fetch_headlines_newsapi (http (today - 5, today - 4))) (today - 5),
       NewsClient.day_counts score
        (NewsClient.fetch_headlines_newsapi (http (today - 4, today - 3))) (today - 4),
       NewsClient.day_counts score
        (NewsClient.fetch_headlines_newsapi (http (today - 3, today - 2))) (today - 3),
       NewsClient.day_counts score
        (NewsClient.fetch_headlines_newsapi (http (today - 2, today - 1))) (today - 2),
       NewsClient.day_counts score
        (NewsClient.fetch_headlines_newsapi (http (today - 1, today))) (today - 1)] := by
    rw [NewsClient.fetch_news_sentiment_data, date_ranges_eq]
    rfl
  have hdate : ∀ hs d, (NewsClient.day_counts score hs d).date = d := fun _ _ => rfl
  have hsum : ∀ hs d, (NewsClient.day_counts score hs d).positive +
      (NewsClient.day_counts score hs d).neutral +
      (NewsClient.day_counts score hs d).negative = hs.length := by
    intro hs d
    simpa [NewsClient.day_counts] using counts_partition score hs
  refine ⟨by rw [hexp]; rfl, ?_, ?_⟩
  · rw [hexp]
    simp [List.pairwise_cons, hdate]
  · intro k hk
    interval_cases k
    · norm_num
      refine ⟨NewsClient.day_counts score
          (NewsClient.fetch_headlines_newsapi (http (today - 5, today - 4))) (today - 5),
        by rw [hexp]; rfl, rfl, hsum _ _, ?_⟩
      intro e he
      simp [NewsClient.day_counts, NewsClient.fetch_headlines_newsapi,
        NewsClient.classify_headlines_with_vader, he]
    · norm_num
      rw [show ((today - 5 + 1 : Int), (today - 4 + 1 : Int)) = (today - 4, today - 3)
            from by simp only [Prod.mk.injEq]; omega,
          show (today - 5 + 1 : Int) = today - 4 from by omega]
      refine ⟨NewsClient.day_counts score
          (NewsClient.fetch_headlines_newsapi (http (today - 4, today - 3))) (today - 4),
        by rw [hexp]; rfl, rfl, hsum _ _, ?_⟩
      intro e he
      simp [NewsClient.day_counts, NewsClient.fetch_headlines_newsapi,
        NewsClient.classify_headlines_with_vader, he]
    · norm_num
      rw [show ((today - 5 + 2 : Int), (today - 4 + 2 : Int)) = (today - 3, today - 2)
            from by simp only [Prod.mk.injEq]; omega,
          show (today - 5 + 2 : Int) = today - 3 from by omega]
      refine ⟨NewsClient.day_counts score
          (NewsClient.fetch_headlines_newsapi (http (today - 3, today - 2))) (today - 3),
        by rw [hexp]; rfl, rfl, hsum _ _, ?_⟩
      intro e he
      simp [NewsClient.day_counts, NewsClient.fetch_headlines_newsapi,
        NewsClient.classify_headlines_with_vader, he]
    · norm_num
      rw [show ((today - 5 + 3 : Int), (today - 4 + 3 : Int)) = (today - 2, today - 1)
            from by simp only [Prod.mk.injEq]; omega,
          show (today - 5 + 3 : Int) = today - 2 from by omega]
      refine ⟨NewsClient.day_counts score
          (NewsClient.fetch_headlines_newsapi (http (today - 2, today - 1))) (today - 2),
        by rw [hexp]; rfl, rfl, hsum _ _, ?_⟩
      intro e he
      simp [NewsClient.day_counts, NewsClient.fetch_headlines_newsapi,
        NewsClient.classify_headlines_with_vader, he]
    · norm_num
      rw [show ((today - 5 + 4 : Int), (today : Int)) = (today - 1, today)
            from by simp only [Prod.mk.injEq, and_true]; omega,
          show (today - 5 + 4 : Int) = today - 1 from by omega]
      refine ⟨NewsClient.day_counts score
          (NewsClient.fetch_headlines_newsapi (http (today - 1, today))) (today - 1),
        by rw [hexp]; rfl, rfl, hsum _ _, ?_⟩
      intro e he
      simp [NewsClient.day_counts, NewsClient.fetch_headlines_newsapi,
        NewsClient.classify_headlines_with_vader, he]

/-- Witness for C5: with every per-day fetch failing, the first row is the
zero-count row for day 95 out of a 5-row window ending at day 100. -/
theorem sentiment_window_witness :
    (NewsClient.fetch_news_sentiment_data (fun _ => 0) (fun _ => .error "down") 100).length = 5 ∧
    (NewsClient.fetch_news_sentiment_data (fun _ => 0) (fun _ => .error "down") 100)[0]? =
      some ⟨95, 0, 0, 0⟩ := by
  obtain ⟨hlen, _, hrow⟩ :=
    sentiment_window (fun _ => 0) (fun _ => .error "down") 100
  obtain ⟨row, h1, _, _, h4⟩ := hrow 0 (by decide)
  refine ⟨hlen, ?_⟩
  rw [h1, h4 "down" rfl]
  norm_num

/-! ## C2 — 24-hour freshness window governs cache hits -/

/-- C2: a cache consult hits iff the entry exists and its age is strictly
below 24 hours; a fresh hit returns the stored payload with no live provider
call; an absent or stale entry is a miss and (for a well-formed period) the
provider is called live. -/
theorem cache_freshness (now : Int) (c : FileCache) (live : Except Err Df)
    (ticker period : String) (full_ohlc : Bool) (path : String)
    (hpath : path = TiingoClient.get_cache_path ticker period full_ohlc "tiingo") :
    (TiingoClient.is_cache_fresh now c path = true ↔
      ∃ m df, statFile c path = some (m, df) ∧ now - m < 24 * 3600) ∧
    (TiingoClient.is_cache_fresh now c path = true →
      (∃ m df, statFile c path = some (m, df) ∧
        (TiingoClient.fetch_from_tiingo now c live ticker period full_ohlc).res = .ok df) ∧
      Ev.liveCall "tiingo" ∉
        (TiingoClient.fetch_from_tiingo now c live ticker period full_ohlc).trace) ∧
    (TiingoClient.is_cache_fresh now c path = false →
      (parsePeriodDays period).isSome = true →
      Ev.liveCall "tiingo" ∈
        (TiingoClient.fetch_from_tiingo now c live ticker period full_ohlc).trace) := by
  subst hpath
  refine ⟨?_, ?_, ?_⟩
  · unfold TiingoClient.is_cache_fresh
    rcases h : statFile c (TiingoClient.get_cache_path ticker period full_ohlc "tiingo")
      with _ | ⟨m, df⟩
    · simp
    · simp [TiingoClient.MAX_CACHE_AGE_HOURS]
  · intro hf
    have hstat := hf
    unfold TiingoClient.is_cache_fresh at hstat
    rcases h : statFile c (TiingoClient.get_cache_path ticker period full_ohlc "tiingo")
      with _ | ⟨m, df⟩
    · rw [h] at hstat; simp at hstat
    · refine ⟨⟨m, df, rfl, ?_⟩, ?_⟩
      · simp [TiingoClient.fetch_from_tiingo, hf, read_parquet, h]
      · simp [TiingoClient.fetch_from_tiingo, hf]
  · intro hm hp
    obtain ⟨d, hd⟩ := Option.isSome_iff_exists.mp hp
    rcases live with e | raw
    · simp [TiingoClient.fetch_from_tiingo, hm, hd]
    · rcases hn : TiingoClient.tiingo_normalize raw full_ohlc with e | res <;>
        simp [TiingoClient.fetch_from_tiingo, hm, hd, hn]

/-- Cache directory holding one fresh entry for the tiingo NVDA 6mo
close-only key, written at time 0. -/
def witnessCache : FileCache :=
  ⟨[(TiingoClient.get_cache_path "NVDA" "6mo" false "tiingo", 0, sampleCloseDf)]⟩

/-- Witness for C2: the entry aged 2 hours is served back without a live
call, and the same entry aged 30 hours triggers the live call. -/
theorem cache_freshness_witness :
    (TiingoClient.fetch_from_tiingo 7200 witnessCache (.error "down")
      "NVDA" "6mo" false).res = .ok sampleCloseDf ∧
    Ev.liveCall "tiingo" ∉
      (TiingoClient.fetch_from_tiingo 7200 witnessCache (.error "down")
        "NVDA" "6mo" false).trace ∧
    Ev.liveCall "tiingo" ∈
      (TiingoClient.fetch_from_tiingo (30 * 3600) witnessCache (.error "down")
        "NVDA" "6mo" false).trace := by
  have h := cache_freshness 7200 witnessCache (.error "down") "NVDA" "6mo" false _ rfl
  have hfresh : TiingoClient.is_cache_fresh 7200 witnessCache
      (TiingoClient.get_cache_path "NVDA" "6mo" false "tiingo") = true := by decide
  obtain ⟨⟨m, df, hstat, hres⟩, hnl⟩ := h.2.1 hfresh
  have hstat0 : statFile witnessCache
      (TiingoClient.get_cache_path "NVDA" "6mo" false "tiingo") =
        some (0, sampleCloseDf) := by decide
  rw [hstat0] at hstat
  have hdf : sampleCloseDf = df := (Prod.ext_iff.mp (Option.some.inj hstat)).2
  refine ⟨by rw [← hdf] at hres; exact hres, hnl, ?_⟩
  have h' := cache_freshness (30 * 3600) witnessCache (.error "down") "NVDA" "6mo" false _ rfl
  exact h'.2.2 (by decide) (by decide)

/-! ## C3 — which chains consult the cache before calling live -/

/-- Counterexample for C3: the chain `main.analyze` invokes
(`stockprice_client.fetch_stock_price_data`) performs a successful live
yfinance call as its one and only side effect — its trace holds a live call
and no cache consult at all, refuting cache-before-live for the primary
price chain. -/
theorem primary_chain_no_cache_cex :
    StockClient.fetch_stock_price_data (fun _ => .ok sampleCloseDf)
        (.error "unused") "6mo" false =
      (.ok ⟨["Date", "Close"], [[some 1, some 10]]⟩, [Ev.liveCall "yfinance"]) := by
  decide

/-- The retry loop performs only live calls and sleeps, never a cache
consult. -/
theorem yfAttempts_no_cacheRead (dl : Nat → Except Err Df) :
    ∀ n k p, Ev.cacheRead p ∉ (StockClient.yfAttempts dl k n).2 := by
  intro n
  induction n with
  | zero => intro k p; simp [StockClient.yfAttempts]
  | succ n ih =>
    intro k p
    rcases hdl : dl k with e | df <;>
      simp [StockClient.yfAttempts, hdl, ih (k + 1) p]

/-- A failed Tiingo leg leaves the cache directory untouched. -/
theorem fetch_from_tiingo_cache_of_error (now : Int) (c : FileCache)
    (tl : Except Err Df) (ticker period : String) (fo : Bool) (e : Err)
    (h : (TiingoClient.fetch_from_tiingo now c tl ticker period fo).res = .error e) :
    (TiingoClient.fetch_from_tiingo now c tl ticker period fo).cache = c := by
  by_cases hf : TiingoClient.is_cache_fresh now c
      (TiingoClient.get_cache_path ticker period fo "tiingo") = true
  · simp [TiingoClient.fetch_from_tiingo, hf]
  · rcases hpd : parsePeriodDays period with _ | d
    · simp [TiingoClient.fetch_from_tiingo, hf, hpd]
    · rcases tl with e' | raw
      · simp [TiingoClient.fetch_from_tiingo, hf, hpd]
      · rcases hn : TiingoClient.tiingo_normalize raw fo with e' | res
        · simp [TiingoClient.fetch_from_tiingo, hf, hpd, hn]
        · exfalso
          simp [TiingoClient.fetch_from_tiingo, hf, hpd, hn] at h

/-- C3 (amended): in the Tiingo/Polygon chain each provider consults its own
cache key before anything else — the provider's trace starts with its cache
read, a fresh hit returns the stored frame with that single consult as the
whole trace, and the chain's trace is the Tiingo leg alone or the Tiingo leg
followed by the Polygon leg over the unchanged cache; but the chain the
orchestrator invokes (yfinance then Polygon) consults no cache at all. -/
theorem cache_before_live (now : Int) (c : FileCache) (tl pl : Except Err Df)
    (dl : Nat → Except Err Df) (ticker period : String) (fo : Bool)
    (tpath ppath : String)
    (htp : tpath = TiingoClient.get_cache_path ticker period fo "tiingo")
    (hpp : ppath = TiingoClient.get_cache_path ticker period fo "polygon") :
    ((TiingoClient.fetch_from_tiingo now c tl ticker period fo).trace.head? =
      some (Ev.cacheRead tpath)) ∧
    (TiingoClient.is_cache_fresh now c tpath = true →
      (TiingoClient.fetch_from_tiingo now c tl ticker period fo).trace =
          [Ev.cacheRead tpath] ∧
      ∃ m df, statFile c tpath = some (m, df) ∧
        (TiingoClient.fetch_from_tiingo now c tl ticker period fo).res = .ok df) ∧
    ((TiingoClient.fetch_from_polygon now c pl ticker period fo).trace.head? =
      some (Ev.cacheRead ppath)) ∧
    (TiingoClient.is_cache_fresh now c ppath = true →
      (TiingoClient.fetch_from_polygon now c pl ticker period fo).trace =
          [Ev.cacheRead ppath] ∧
      ∃ m df, statFile c ppath = some (m, df) ∧
        (TiingoClient.fetch_from_polygon now c pl ticker period fo).res = .ok df) ∧
    ((TiingoClient.fetch_stock_price_data now c tl pl ticker period fo).trace =
        (TiingoClient.fetch_from_tiingo now c tl ticker period fo).trace ∨
      (TiingoClient.fetch_stock_price_data now c tl pl ticker period fo).trace =
        (TiingoClient.fetch_from_tiingo now c tl ticker period fo).trace ++
          (TiingoClient.fetch_from_polygon now c pl ticker period fo).trace) ∧
    (∀ p : String,
      Ev.cacheRead p ∉ (StockClient.fetch_stock_price_data dl pl period fo).2) := by
  subst htp hpp
  refine ⟨?_, ?_, ?_, ?_, ?_, ?_⟩
  · by_cases hf : TiingoClient.is_cache_fresh now c
        (TiingoClient.get_cache_path ticker period fo "tiingo") = true
    · simp [TiingoClient.fetch_from_tiingo, hf]
    · rcases hpd : parsePeriodDays period with _ | d
      · simp [TiingoClient.fetch_from_tiingo, hf, hpd]
      · rcases tl with e | raw
        · simp [TiingoClient.fetch_from_tiingo, hf, hpd]
        · rcases hn : TiingoClient.tiingo_normalize raw fo with e | res <;>
            simp [TiingoClient.fetch_from_tiingo, hf, hpd, hn]
  · intro hf
    refine ⟨by simp [TiingoClient.fetch_from_tiingo, hf], ?_⟩
    have hstat := hf
    unfold TiingoClient.is_cache_fresh at hstat
    rcases h : statFile c (TiingoClient.get_cache_path ticker period fo "tiingo")
      with _ | ⟨m, df⟩
    · rw [h] at hstat; simp at hstat
    · exact ⟨m, df, rfl, by simp [TiingoClient.fetch_from_tiingo, hf, read_parquet, h]⟩
  · by_cases hf : TiingoClient.is_cache_fresh now c
        (TiingoClient.get_cache_path ticker period fo "polygon") = true
    · simp [TiingoClient.fetch_from_polygon, hf]
    · rcases hpd : parsePeriodDays period with _ | d
      · simp [TiingoClient.fetch_from_polygon, hf, hpd]
      · rcases pl with e | raw
        · simp [TiingoClient.fetch_from_polygon, hf, hpd]
        · rcases hemp : raw.rows.isEmpty with _ | _
          · rcases hn : StockClient.polygon_normalize raw fo with e | res <;>
              simp [TiingoClient.fetch_from_polygon, hf, hpd, hemp, hn]
          · simp [TiingoClient.fetch_from_polygon, hf, hpd, hemp]
  · intro hf
    refine ⟨by simp [TiingoClient.fetch_from_polygon, hf], ?_⟩
    have hstat := hf
    unfold TiingoClient.is_cache_fresh at hstat
    rcases h : statFile c (TiingoClient.get_cache_path ticker period fo "polygon")
      with _ | ⟨m, df⟩
    · rw [h] at hstat; simp at hstat
    · exact ⟨m, df, rfl, by simp [TiingoClient.fetch_from_polygon, hf, read_parquet, h]⟩
  · rcases hres : (TiingoClient.fetch_from_tiingo now c tl ticker period fo).res
      with e | df
    · right
      have hcache := fetch_from_tiingo_cache_of_error now c tl ticker period fo e hres
      simp [TiingoClient.fetch_stock_price_data, hres, hcache]
    · left
      simp [TiingoClient.fetch_stock_price_data, hres]
  · intro p
    have hyf : ∀ q, Ev.cacheRead q ∉ (StockClient.get_yfinance_df dl fo).2 := by
      intro q
      rcases h : StockClient.yfAttempts dl 0 3 with ⟨_ | df, evs⟩
      · have := yfAttempts_no_cacheRead dl 3 0 q
        rw [h] at this
        simpa [StockClient.get_yfinance_df, h] using this
      · have := yfAttempts_no_cacheRead dl 3 0 q
        rw [h] at this
        rcases hemp : df.rows.isEmpty with _ | _ <;>
          simpa [StockClient.get_yfinance_df, h, hemp] using this
    have hpoly : ∀ q, Ev.cacheRead q ∉ (StockClient.fetch_from_polygon pl period fo).2 := by
      intro q
      rcases hpd : parsePeriodDays period with _ | d
      · simp [StockClient.fetch_from_polygon, hpd]
      · rcases pl with e | raw
        · simp [StockClient.fetch_from_polygon, hpd]
        · rcases hemp : raw.rows.isEmpty with _ | _
          · rcases hn : StockClient.polygon_normalize raw fo with e | res <;>
              simp [StockClient.fetch_from_polygon, hpd, hemp, hn]
          · simp [StockClient.fetch_from_polygon, hpd, hemp]
    rcases hg : StockClient.get_yfinance_df dl fo with ⟨r, evs⟩
    have hevs : Ev.cacheRead p ∉ evs := by
      have := hyf p
      rw [hg] at this
      exact this
    rcases r with e | df
    · intro hmem
      have := hpoly p
      simp [StockClient.fetch_stock_price_data, hg] at hmem
      rcases hmem with hmem | hmem
      · exact hevs hmem
      · exact this hmem
    · intro hmem
      simp [StockClient.fetch_stock_price_data, hg] at hmem
      exact hevs hmem

/-- Witness for C3 (amended): with a fresh entry under the tiingo key, the
whole chain returns the cached frame after a single cache consult. -/
theorem cache_before_live_witness :
    (TiingoClient.fetch_from_tiingo 7200 witnessCache (.error "down")
        "NVDA" "6mo" false).trace =
      [Ev.cacheRead (TiingoClient.get_cache_path "NVDA" "6mo" false "tiingo")] := by
  exact ((cache_before_live 7200 witnessCache (.error "down") (.error "down")
    (fun _ => .error "down") "NVDA" "6mo" false _ _ rfl rfl).2.1 (by decide)).1

/-! ## C7 — what the yfinance retry loop actually retries -/

/-- Counterexample for C7: when the very first download succeeds but carries
an empty payload, the fetch fails after exactly one live call and no backoff
sleep — an empty payload is not retried, refuting the claim that empty
payloads are retried in place up to 3 times. -/
theorem empty_payload_not_retried_cex :
    StockClient.get_yfinance_df (fun _ => .ok (⟨["Date", "Close"], []⟩ : Df)) false =
      (.error "yfinance returned empty data", [Ev.liveCall "yfinance"]) := by
  decide

/-- C7 (amended): an exception from the live yfinance call (network error,
rate limit) is retried in place up to 3 attempts with a 1-second backoff
sleep after each failure; an empty payload is not retried — the first
successful download with no rows fails the provider immediately; in either
case the declared failure escalates to the Polygon leg of the chain. -/
theorem yf_retry_policy (dl : Nat → Except Err Df) (poly : Except Err Df)
    (period : String) (fo : Bool) :
    ((∀ k, k < 3 → ∃ e, dl k = .error e) →
      StockClient.get_yfinance_df dl fo =
        (.error "yfinance failed after 3 retries",
         [Ev.liveCall "yfinance", Ev.sleep1s, Ev.liveCall "yfinance", Ev.sleep1s,
          Ev.liveCall "yfinance", Ev.sleep1s])) ∧
    (∀ df, dl 0 = .ok df → df.rows = [] →
      StockClient.get_yfinance_df dl fo =
        (.error "yfinance returned empty data", [Ev.liveCall "yfinance"])) ∧
    (∀ e d, (StockClient.get_yfinance_df dl fo).1 = .error e →
      parsePeriodDays period = some d →
      Ev.liveCall "polygon" ∈
        (StockClient.fetch_stock_price_data dl poly period fo).2) := by
  refine ⟨?_, ?_, ?_⟩
  · intro h
    obtain ⟨e0, h0⟩ := h 0 (by omega)
    obtain ⟨e1, h1⟩ := h 1 (by omega)
    obtain ⟨e2, h2⟩ := h 2 (by omega)
    simp [StockClient.get_yfinance_df, StockClient.yfAttempts, h0, h1, h2]
  · intro df h0 hrows
    simp [StockClient.get_yfinance_df, StockClient.yfAttempts, h0, hrows]
  · intro e d herr hpd
    rcases hg : StockClient.get_yfinance_df dl fo with ⟨r, evs⟩
    rw [hg] at herr
    rcases r with e' | df
    · rcases poly with pe | raw
      · simp [StockClient.fetch_stock_price_data, hg,
          StockClient.fetch_from_polygon, hpd]
      · rcases hemp : raw.rows.isEmpty with _ | _
        · rcases hn : StockClient.polygon_normalize raw fo with ne | res <;>
            simp [StockClient.fetch_stock_price_data, hg,
              StockClient.fetch_from_polygon, hpd, hemp, hn]
        · simp [StockClient.fetch_stock_price_data, hg,
            StockClient.fetch_from_polygon, hpd, hemp]
    · simp at herr

/-- Witness for C7 (amended): three failing downloads yield three live calls
and three sleeps; the declared failure then reaches Polygon. -/
theorem yf_retry_policy_witness :
    StockClient.get_yfinance_df (fun _ => .error "conn reset") false =
      (.error "yfinance failed after 3 retries",
       [Ev.liveCall "yfinance", Ev.sleep1s, Ev.liveCall "yfinance", Ev.sleep1s,
        Ev.liveCall "yfinance", Ev.sleep1s]) ∧
    Ev.liveCall "polygon" ∈
      (StockClient.fetch_stock_price_data (fun _ => .error "conn reset")
        (.error "down") "6mo" false).2 := by
  refine ⟨(yf_retry_policy (fun _ => .error "conn reset") (.error "down")
      "6mo" false).1 (fun k _ => ⟨"conn reset", rfl⟩), ?_⟩
  exact (yf_retry_policy (fun _ => .error "conn reset") (.error "down")
    "6mo" false).2.2 "yfinance failed after 3 retries" 180 (by decide) (by decide)

/-! ## C8 — the normalizer neither sorts nor de-duplicates; it preserves
provider row order -/

/-- A provider frame whose rows are out of order and carry a duplicate
date. -/
def unsortedDf : Df :=
  ⟨["Date", "Close"], [[some 2, some 10], [some 1, some 11], [some 1, some 12]]⟩

/-- Counterexample for C8: the yfinance normalizer accepts an out-of-order,
duplicate-date payload unchanged — the output dates are 2, 1, 1, neither
sorted ascending nor unique, refuting the claim that the normalizer sorts by
date and de-duplicates. -/
theorem normalizer_no_sort_cex :
    StockClient.yf_normalize unsortedDf false =
      .ok ⟨["Date", "Close"], [[some 2, some 10], [some 1, some 11], [some 1, some 12]]⟩ ∧
    datesCol ⟨["Date", "Close"],
        [[some 2, some 10], [some 1, some 11], [some 1, some 12]]⟩ =
      [some 2, some 1, some 1] ∧
    ¬ List.Pairwise (fun a b => optLtB a b = true)
        ([some 2, some 1, some 1] : List (Option Rat)) := by
  refine ⟨by decide, by decide, by decide⟩

/-- A column name contained in the frame has an index. -/
theorem colIdx_isSome_of_contains (df : Df) (n : String)
    (h : df.cols.contains n = true) : ∃ i, colIdx df n = some i := by
  unfold colIdx
  have h2 : (df.cols.findIdx? (fun c => decide (c = n))).isSome = true := by
    rw [List.findIdx?_isSome]
    simp only [List.any_eq_true, decide_eq_true_eq]
    exact ⟨n, by simpa using h, rfl⟩
  exact Option.isSome_iff_exists.mp h2

/-- The `Date` column through an explicit index. -/
theorem datesCol_eq_of_colIdx (df : Df) (i : Nat) (h : colIdx df "Date" = some i) :
    datesCol df = df.rows.map (fun r => cell r i) := by
  unfold datesCol getCol
  rw [h]
  rfl

/-- Shape of a successful `dropna`: columns kept, rows a filter. -/
theorem dropna_ok_shape (subset : List String) (df d : Df)
    (h : dropna subset df = .ok d) :
    d.cols = df.cols ∧ (∃ p, d.rows = df.rows.filter p) ∧
      subset.all (fun n => df.cols.contains n) = true := by
  unfold dropna at h
  split_ifs at h with hc
  · simp only [Except.ok.injEq] at h
    exact ⟨by rw [← h], ⟨_, by rw [← h]⟩, hc⟩

/-- Shape of a successful projection. -/
theorem selectCols_ok_shape (names : List String) (d out : Df)
    (h : selectCols names d = .ok out) :
    out = ⟨names, d.rows.map (fun r => names.map (fun n =>
      cell r ((colIdx d n).getD 0)))⟩ ∧
    names.all (fun n => d.cols.contains n) = true := by
  unfold selectCols at h
  split_ifs at h with hc
  · simp only [Except.ok.injEq] at h
    exact ⟨h.symm, hc⟩

/-- The `Date` column of a frame whose first column is `Date`. -/
theorem datesCol_mk_cons (rest : List String) (rows : List (List (Option Rat))) :
    datesCol ⟨"Date" :: rest, rows⟩ = rows.map (fun r => cell r 0) := by
  unfold datesCol getCol colIdx
  simp [List.findIdx?_cons]

/-- The `Date` values surviving a `dropna` then a projection headed by
`Date` form a sublist of the input's `Date` column. -/
theorem datesCol_dropna_select (subset names rest : List String)
    (hn : names = "Date" :: rest) (df d out : Df)
    (hd : dropna subset df = .ok d) (hs : selectCols names d = .ok out) :
    (datesCol out).Sublist (datesCol df) := by
  obtain ⟨hcols, ⟨p, hrows⟩, _⟩ := dropna_ok_shape subset df d hd
  obtain ⟨hout, hall⟩ := selectCols_ok_shape names d out hs
  have hcont : df.cols.contains "Date" = true := by
    rw [hn] at hall
    simp only [List.all_cons, Bool.and_eq_true] at hall
    rw [← hcols]
    exact hall.1
  obtain ⟨i, hi⟩ := colIdx_isSome_of_contains df "Date" hcont
  have hid : colIdx d "Date" = some i := by
    unfold colIdx at hi ⊢
    rw [hcols]
    exact hi
  have h1 : datesCol out = d.rows.map (fun r => cell r i) := by
    rw [hout, hn, datesCol_mk_cons]
    simp only [List.map_map]
    refine List.map_congr_left ?_
    intro r _
    simp [Function.comp, cell, hid]
  have h2 : datesCol df = df.rows.map (fun r => cell r i) :=
    datesCol_eq_of_colIdx df i hi
  rw [h1, h2, hrows]
  exact (List.filter_sublist _).map _

/-- Renaming only `c` leaves the `Date` column untouched. -/
theorem datesCol_rename_c (df : Df) :
    datesCol (renameCols [("c", "Close")] df) = datesCol df := by
  unfold datesCol getCol colIdx renameCols
  rw [List.findIdx?_map]
  have hpred : ((fun c => decide (c = "Date")) ∘
      (fun c => ((List.lookup c [("c", "Close")]).getD c))) =
      (fun c => decide (c = "Date")) := by
    funext x
    by_cases hx : x = "c"
    · subst hx; simp
    · have hbeq : (x == "c") = false := by simp [hx]
      simp [List.lookup, hbeq, hx]
  rw [hpred]

/-- C8 (amended): neither normalizer sorts or de-duplicates; each preserves
the provider's row order, dropping only NA rows, so the output `Date` column
is a sublist of the input's (for Polygon, of the dates computed from `t`),
and it is strictly ascending — sorted with unique dates — exactly whenever
the input's retained dates are; sortedness of the payload itself is the
provider's doing (Polygon is queried with sort=asc), not the normalizer's. -/
theorem normalizer_preserves_order (df0 raw : Df) (fo : Bool) :
    (∀ out, StockClient.yf_normalize df0 fo = .ok out →
      (datesCol out).Sublist (datesCol (StockClient.yfPrep df0)) ∧
      (List.Pairwise (fun a b => optLtB a b = true)
          (datesCol (StockClient.yfPrep df0)) →
        List.Pairwise (fun a b => optLtB a b = true) (datesCol out))) ∧
    (∀ out, StockClient.polygon_normalize raw fo = .ok out →
      (datesCol out).Sublist (datesCol (StockClient.polyWithDate raw)) ∧
      (List.Pairwise (fun a b => optLtB a b = true)
          (datesCol (StockClient.polyWithDate raw)) →
        List.Pairwise (fun a b => optLtB a b = true) (datesCol out))) := by
  obtain ⟨rest, hrest⟩ : ∃ rest, expected_cols fo = "Date" :: rest := by
    rcases fo with _ | _ <;> exact ⟨_, rfl⟩
  constructor
  · intro out h
    have hsub : (datesCol out).Sublist (datesCol (StockClient.yfPrep df0)) := by
      simp only [StockClient.yf_normalize] at h
      split_ifs at h with hall
      rcases hd : dropna (expected_cols fo) (StockClient.yfPrep df0) with e | d
      · rw [hd] at h; cases h
      · rw [hd] at h
        exact datesCol_dropna_select _ _ rest hrest _ _ _ hd h
    exact ⟨hsub, fun hp => List.Pairwise.sublist hsub hp⟩
  · intro out h
    have hsub : (datesCol out).Sublist (datesCol (StockClient.polyWithDate raw)) := by
      simp only [StockClient.polygon_normalize] at h
      split_ifs at h with ht
      rcases hd : dropna ["Date", "Close"]
          (renameCols [("c", "Close")] (StockClient.polyWithDate raw)) with e | d
      · rw [hd] at h; cases h
      · rw [hd] at h
        have := datesCol_dropna_select _ _ rest hrest _ _ _ hd h
        rwa [datesCol_rename_c] at this
    exact ⟨hsub, fun hp => List.Pairwise.sublist hsub hp⟩

/-- Witness for C8 (amended): a payload already sorted with unique dates
normalizes to an output that is still sorted with unique dates. -/
theorem normalizer_preserves_order_witness :
    List.Pairwise (fun a b => optLtB a b = true)
      (datesCol ⟨["Date", "Close"], [[some 1, some 10], [some 2, some 11]]⟩) := by
  have h := (normalizer_preserves_order
      ⟨["Date", "Close"], [[some 1, some 10], [some 2, some 11]]⟩ samplePolyDf false).1
    ⟨["Date", "Close"], [[some 1, some 10], [some 2, some 11]]⟩ (by decide)
  exact h.2 (by decide)

/-! ## C4 — Polygon field mapping: `c` is renamed, `h`/`l` are not -/

/-- C4: on the field names Polygon actually returns, only `c` is renamed to
`Close`; `h` and `l` are never mapped to `High`/`Low`, so the full-OHLC
projection always raises KeyError — no successful full-OHLC Polygon fetch
exists — while the close-only projection succeeds with exactly the canonical
`Date`/`Close` columns. -/
theorem selectCols_error (names : List String) (d : Df)
    (h : names.all (fun n => d.cols.contains n) = false) :
    selectCols names d = .error "KeyError: columns not in index" := by
  unfold selectCols
  rw [if_neg]
  rw [h]
  simp

theorem polygon_full_ohlc_bug (raw : Df)
    (hcols : raw.cols = ["v", "vw", "o", "c", "h", "l", "t", "n"]) :
    StockClient.polygon_normalize raw true = .error "KeyError: columns not in index" ∧
    (∀ out, StockClient.polygon_normalize raw false = .ok out →
      out.cols = ["Date", "Close"]) := by
  have hidx : colIdx raw "Date" = none := by
    unfold colIdx; rw [hcols]; rfl
  have h1 : (StockClient.polyWithDate raw).cols =
      ["v", "vw", "o", "c", "h", "l", "t", "n", "Date"] := by
    simp only [StockClient.polyWithDate, setCol, hidx]
    rw [hcols]
    rfl
  have h2 : (renameCols [("c", "Close")] (StockClient.polyWithDate raw)).cols =
      ["v", "vw", "o", "Close", "h", "l", "t", "n", "Date"] := by
    simp only [renameCols]
    rw [h1]
    rfl
  have hct : raw.cols.contains "t" = true := by rw [hcols]; rfl
  have hdr : (["Date", "Close"].all (fun n =>
      (renameCols [("c", "Close")] (StockClient.polyWithDate raw)).cols.contains n)) = true := by
    rw [h2]; rfl
  rcases hd : dropna ["Date", "Close"]
      (renameCols [("c", "Close")] (StockClient.polyWithDate raw)) with e | d
  · exfalso
    unfold dropna at hd
    rw [if_pos hdr] at hd
    cases hd

  · obtain ⟨hdc, _, _⟩ := dropna_ok_shape _ _ _ hd
    constructor
    · have hsel : (["Date", "High", "Low", "Close"].all
          (fun n => d.cols.contains n)) = false := by
        rw [hdc, h2]; rfl
      simp only [StockClient.polygon_normalize, hct, Bool.not_true, hd]
      rw [if_neg (by simp)]
      have hexp : expected_cols true = ["Date", "High", "Low", "Close"] := rfl
      rw [hexp]
      exact selectCols_error _ _ hsel
    · intro out h
      simp only [StockClient.polygon_normalize, hct, Bool.not_true, hd] at h
      rw [if_neg (by simp)] at h
      have hexp : expected_cols false = ["Date", "Close"] := rfl
      rw [hexp] at h
      exact ((selectCols_ok_shape _ _ _ h).1 ▸ rfl : out.cols = ["Date", "Close"])

/-- Witness for C4: a well-formed one-bar Polygon payload fails outright in
full-OHLC mode and normalizes in close-only mode to exactly Date and
Close. -/
theorem polygon_full_ohlc_bug_witness :
    StockClient.polygon_normalize samplePolyDf true =
      .error "KeyError: columns not in index" ∧
    StockClient.polygon_normalize samplePolyDf false =
      .ok ⟨["Date", "Close"], [[some 1, some 11]]⟩ ∧
    (⟨["Date", "Close"], [[some 1, some 11]]⟩ : Df).cols = ["Date", "Close"] := by
  refine ⟨(polygon_full_ohlc_bug samplePolyDf rfl).1, by decide,
    (polygon_full_ohlc_bug samplePolyDf rfl).2 _ (by decide)⟩

/-! ## C10 — sector aggregation contains individual failures -/

/-- Containment over an arbitrary sector list: result columns are exactly
the successful sectors in order, and every column traces back to a
successful fetch. -/
theorem sector_aux (oracle : String → Except Err Df) (l : List (String × String)) :
    (((l.map (fun p => SectorClient.get_typical_price oracle p.1 p.2)).filterMap
        (fun r => r.2.map (fun ts => (r.1, ts)))).map Prod.fst =
      (l.filter (fun p => succB (oracle p.2))).map Prod.fst) ∧
    (∀ s col,
      (s, col) ∈ (l.map (fun p => SectorClient.get_typical_price oracle p.1 p.2)).filterMap
          (fun r => r.2.map (fun ts => (r.1, ts))) →
      ∃ t df, (s, t) ∈ l ∧ oracle t = .ok df ∧
        SectorClient.typical_of df = some col) := by
  induction l with
  | nil => simp
  | cons p tl ih =>
    rcases hor : oracle p.2 with e | df
    · refine ⟨?_, ?_⟩
      · simpa [SectorClient.get_typical_price, hor, succB] using ih.1
      · intro s col hmem
        simp only [List.map_cons, SectorClient.get_typical_price, hor,
          List.filterMap_cons, Option.map_none'] at hmem
        obtain ⟨t, df', htl, ho, ht⟩ := ih.2 s col hmem
        exact ⟨t, df', List.mem_cons_of_mem p htl, ho, ht⟩
    · rcases hts : SectorClient.typical_of df with _ | ts
      · refine ⟨?_, ?_⟩
        · simpa [SectorClient.get_typical_price, hor, hts, succB] using ih.1
        · intro s col hmem
          simp only [List.map_cons, SectorClient.get_typical_price, hor, hts,
            List.filterMap_cons, Option.map_none'] at hmem
          obtain ⟨t, df', htl, ho, ht⟩ := ih.2 s col hmem
          exact ⟨t, df', List.mem_cons_of_mem p htl, ho, ht⟩
      · refine ⟨?_, ?_⟩
        · simpa [SectorClient.get_typical_price, hor, hts, succB] using ih.1
        · intro s col hmem
          simp only [List.map_cons, SectorClient.get_typical_price, hor, hts,
            List.filterMap_cons, Option.map_some'] at hmem
          rcases List.mem_cons.mp hmem with heq | hmem'
          · rw [Prod.mk.injEq] at heq
            obtain ⟨hs, hcol⟩ := heq
            exact ⟨p.2, df, by rw [hs]; exact List.mem_cons_self p tl,
              hor, by rw [hcol]; exact hts⟩
          · obtain ⟨t, df', htl, ho, ht⟩ := ih.2 s col hmem'
            exact ⟨t, df', List.mem_cons_of_mem p htl, ho, ht⟩

/-- C10: the sector typical-price aggregation keeps one column per sector
whose fetch succeeded — in the fixed sector order, each column derived from
that sector's fetched frame by the typical-price formula — omits every
failed sector, and returns the empty table when all ten fetches fail. -/
theorem sector_failures_contained (oracle : String → Except Err Df) :
    ((SectorClient.get_sector_typical_prices oracle).map Prod.fst =
      (SectorClient.sector_etfs.filter (fun p => succB (oracle p.2))).map Prod.fst) ∧
    (∀ s col, (s, col) ∈ SectorClient.get_sector_typical_prices oracle →
      ∃ t df, (s, t) ∈ SectorClient.sector_etfs ∧ oracle t = .ok df ∧
        SectorClient.typical_of df = some col) ∧
    ((∀ p ∈ SectorClient.sector_etfs, succB (oracle p.2) = false) →
      SectorClient.get_sector_typical_prices oracle = []) := by
  have h := sector_aux oracle SectorClient.sector_etfs
  refine ⟨h.1, h.2, ?_⟩
  intro hall
  have h0 : SectorClient.sector_etfs.filter (fun p => succB (oracle p.2)) = [] := by
    rw [List.filter_eq_nil_iff]
    intro a ha
    simp [hall a ha]
  have h1 := h.1
  rw [h0] at h1
  simpa [SectorClient.get_sector_typical_prices] using h1

/-- Witness for C10: with every sector fetch failing, the aggregation
returns the empty table rather than raising. -/
theorem sector_failures_contained_witness :
    SectorClient.get_sector_typical_prices (fun _ => .error "down") = [] :=
  (sector_failures_contained (fun _ => .error "down")).2.2 (fun _ _ => rfl)

end PocketIntel
